import Mathlib

/-!
Verification of the window-derivation core of the `diwata` repository
(`src/intel/src/window.rs`, `src/server/src/context.rs`).

The embedded code is translated from `src/intel/src/window.rs`.  External
collaborators (the rustorm schema types, the relationship classifier
`TableIntel`, the `Tab` builder, the cache pool) are modelled from the
specification, since only their interfaces are visible to the shown source.
-/

/-- A schema-qualified table identity (rustorm `TableName`): table name plus
optional schema.  Equality is exact structural equality on both fields. -/
structure TableName where
  name : String
  schema : Option String
deriving DecidableEq

/-- A column identity (rustorm `ColumnName`). -/
structure ColumnName where
  name : String
deriving DecidableEq

/-- Table metadata (rustorm `Table`), as consumed by the window core:
identity, optional comment, is-view flag and columns.  Foreign keys are only
consumed by the external relationship classifier and are not modelled. -/
structure Table where
  name : TableName
  comment : Option String
  is_view : Bool
  columns : List ColumnName
deriving DecidableEq

/-- Modelled from the spec: the Tab builder (`tab.rs` is not part of the shown
source).  A Tab is a UI-facing projection of one Table, optionally carrying a
display-name override, and retaining enough metadata (identity, columns,
is-view flag, description) to answer column-presence queries. -/
structure Tab where
  name : String
  description : Option String
  table_name : TableName
  is_view : Bool
  columns : List ColumnName
deriving DecidableEq

/-- Modelled from the spec: `build_tab(table, optional display-name override,
all_tables) -> Tab`.  The display name is the override when given, otherwise
the table's bare name; the remaining fields are copied from the table. -/
def Tab.from_table (table : Table) (name : Option String) (_all_tables : List Table) : Tab :=
  { name := name.getD table.name.name
    description := table.comment
    table_name := table.name
    is_view := table.is_view
    columns := table.columns }

/-- Modelled from the spec: a Tab answers column-presence queries over the
columns it retained from its table. -/
def Tab.has_column_name (tab : Tab) (column_name : ColumnName) : Bool :=
  tab.columns.contains column_name

/-- `table_intel::IndirectTable`: a many-to-many path, the main table reaches
`indirect_table` through the linking table `linker`. -/
structure IndirectTable where
  linker : Table
  indirect_table : Table
deriving DecidableEq

/-- Modelled from the spec: the Relationship Classifier (`table_intel.rs` is
not part of the shown source) is consumed as a capability: window-worthiness
plus the four relationship queries, each over a table and the full table set. -/
structure TableIntel where
  is_window : Table → List Table → Bool
  get_one_one_tables : Table → List Table → List Table
  get_has_one_tables : Table → List Table → List Table
  get_has_many_tables : Table → List Table → List Table
  get_indirect_tables : Table → List Table → List IndirectTable

/-- `intel::window::Window`: the navigation aggregate for one main table. -/
structure Window where
  name : String
  description : Option String
  group : Option String
  main_tab : Tab
  has_one_tabs : List Tab
  one_one_tabs : List Tab
  has_many_tabs : List Tab
  indirect_tabs : List (TableName × Tab)
  is_view : Bool
deriving DecidableEq

/-- `has_repeating_tab` (window.rs lines 116-128): counts the indirect
relations whose target table identity equals `table_name`, and reports whether
more than one matched. -/
def has_repeating_tab (table_name : TableName) (indirect : List IndirectTable) : Bool :=
  let matched := indirect.foldl
    (fun acc ind => if ind.indirect_table.name == table_name then acc + 1 else acc) 0
  if matched > 1 then true else false

/-- `Window::from_tables` (window.rs lines 51-103): builds the main tab with
no display-name override, one tab per related table in each collection, and
for each indirect relation a `(linker identity, tab)` pair whose tab receives
the display name `"<target> (via <linker>)"` exactly when the target's
identity repeats in the indirect set. -/
def Window.from_tables (main_table : Table) (one_one : List Table) (has_one : List Table)
    (has_many : List Table) (indirect : List IndirectTable) (all_tables : List Table) : Window :=
  let main_tab : Tab := Tab.from_table main_table none all_tables
  let one_one_tabs : List Tab := one_one.map (fun t => Tab.from_table t none all_tables)
  let has_one_tabs : List Tab := has_one.map (fun t => Tab.from_table t none all_tables)
  let has_many_tabs : List Tab := has_many.map (fun t => Tab.from_table t none all_tables)
  let is_view := main_tab.is_view
  let indirect_tabs : List (TableName × Tab) := indirect.map (fun t =>
    let has_repeat := has_repeating_tab t.indirect_table.name indirect
    let tab_name : Option String :=
      if has_repeat then
        some (t.indirect_table.name.name ++ " (via " ++ t.linker.name.name ++ ")")
      else
        none
    (t.linker.name, Tab.from_table t.indirect_table tab_name all_tables))
  { name := main_tab.name
    description := main_tab.description
    group := main_tab.table_name.schema
    main_tab := main_tab
    has_one_tabs := has_one_tabs
    one_one_tabs := one_one_tabs
    has_many_tabs := has_many_tabs
    indirect_tabs := indirect_tabs
    is_view := is_view }

/-- `Window::has_column_name` (window.rs lines 105-113): true when the main
tab, any has-many tab, or any indirect tab contains the column; has-one and
one-one tabs are not consulted. -/
def Window.has_column_name (w : Window) (column_name : ColumnName) : Bool :=
  w.main_tab.has_column_name column_name
    || w.has_many_tabs.any (fun tab => tab.has_column_name column_name)
    || w.indirect_tabs.any (fun p => p.2.has_column_name column_name)

/-- `intel::window::WindowName`: a lightweight window summary. -/
structure WindowName where
  name : String
  table_name : TableName
  is_view : Bool
deriving DecidableEq

/-- `intel::window::GroupedWindow`: one schema group's window summaries. -/
structure GroupedWindow where
  group : String
  window_names : List WindowName
deriving DecidableEq

/-- rustorm `SchemaContent`: one schema group with its table and view names. -/
structure SchemaContent where
  schema : String
  tablenames : List TableName
  views : List TableName
deriving DecidableEq

/-- rustorm `DbError`, modelled as an opaque message. -/
structure DbError where
  message : String
deriving DecidableEq

/-- `error::IntelError` (error.rs is not part of the shown source): modelled
from the spec as the load-failure error kind, wrapping the database error. -/
inductive IntelError where
  | db_error : DbError → IntelError
deriving DecidableEq

/-- Modelled from the spec: `table_intel::get_table` (table_intel.rs is not
part of the shown source) finds the table whose identity equals the given
name, or reports absence. -/
def get_table (table_name : TableName) (tables : List Table) : Option Table :=
  tables.find? (fun t => t.name == table_name)

/-- `derive_all_windows` (window.rs lines 188-210): for each table in input
order, if the classifier judges it window-worthy, request its related tables
and build a Window; otherwise skip it. -/
def derive_all_windows (ti : TableIntel) (tables : List Table) : List Window :=
  tables.filterMap (fun table =>
    if ti.is_window table tables then
      some (Window.from_tables table
        (ti.get_one_one_tables table tables)
        (ti.get_has_one_tables table tables)
        (ti.get_has_many_tables table tables)
        (ti.get_indirect_tables table tables)
        tables)
    else
      none)

/-- `get_window` (window.rs lines 212-216): the first window whose main
tab's table identity equals the queried identity. -/
def get_window (table_name : TableName) (windows : List Window) : Option Window :=
  windows.find? (fun w => w.main_tab.table_name == table_name)

/-- `get_grouped_windows` (window.rs lines 156-183).  The entity manager's
`get_grouped_tables()` database call is modelled as its result,
`schema_content`.  For each group, each listed table name followed by each
listed view name is looked up in the table set; names with no matching table
are skipped, and a WindowName is emitted for each found table the classifier
judges window-worthy. -/
def get_grouped_windows (ti : TableIntel) (schema_content : Except DbError (List SchemaContent))
    (tables : List Table) : Except DbError (List GroupedWindow) :=
  match schema_content with
  | .error e => .error e
  | .ok scs => .ok (scs.map (fun sc =>
      { group := sc.schema
        window_names := (sc.tablenames ++ sc.views).filterMap (fun table_name =>
          match get_table table_name tables with
          | some table =>
            if ti.is_window table tables then
              some { name := table_name.name
                     table_name := table_name
                     is_view := table.is_view }
            else
              none
          | none => none) }))

/-- Modelled from the spec: the process-wide cache pool (`cache.rs` is not
part of the shown source), keyed by database connection identity, holding both
the raw table set and the derived window set per identity. -/
structure CachePool where
  table_cache : List (String × List Table)
  window_cache : List (String × List Window)

/-- Modelled from the spec: `get_cached_tables`.  On a hit the stored table
set is returned and the pool is unchanged; on a miss the schema loader runs,
and on success its result is stored; on a load failure the error is returned
and nothing is stored.  The loader is passed as a function from the
connection identity, standing for `em.get_all_tables()`. -/
def CachePool.get_cached_tables (loader : String → Except IntelError (List Table))
    (pool : CachePool) (db_url : String) : Except IntelError (List Table) × CachePool :=
  match pool.table_cache.lookup db_url with
  | some tables => (.ok tables, pool)
  | none =>
    match loader db_url with
    | .ok tables => (.ok tables, { pool with table_cache := (db_url, tables) :: pool.table_cache })
    | .error e => (.error e, pool)

/-- Modelled from the spec: `get_cached_windows`.  On a hit the stored window
set is returned; on a miss the tables are obtained through the table cache,
windows are derived from them and stored; a load failure is surfaced and
nothing is stored. -/
def CachePool.get_cached_windows (ti : TableIntel)
    (loader : String → Except IntelError (List Table)) (pool : CachePool) (db_url : String) :
    Except IntelError (List Window) × CachePool :=
  match pool.window_cache.lookup db_url with
  | some windows => (.ok windows, pool)
  | none =>
    match pool.get_cached_tables loader db_url with
    | (.ok tables, pool1) =>
      let windows := derive_all_windows ti tables
      (.ok windows, { pool1 with window_cache := (db_url, windows) :: pool1.window_cache })
    | (.error e, pool1) => (.error e, pool1)

/-- `get_grouped_windows_using_cache` (window.rs lines 143-151): obtains the
tables through the cache pool and projects them to the grouped listing; a
database error from the grouping query is wrapped into `IntelError`. -/
def get_grouped_windows_using_cache (ti : TableIntel)
    (loader : String → Except IntelError (List Table))
    (schema_content : Except DbError (List SchemaContent)) (pool : CachePool) (db_url : String) :
    Except IntelError (List GroupedWindow) × CachePool :=
  match pool.get_cached_tables loader db_url with
  | (.ok tables, pool1) =>
    match get_grouped_windows ti schema_content tables with
    | .ok gws => (.ok gws, pool1)
    | .error e => (.error (IntelError.db_error e), pool1)
  | (.error e, pool1) => (.error e, pool1)

/-! ## Concrete sample data -/

/-- A sample base table with the given name in schema `public`. -/
def sample_table (n : String) : Table :=
  { name := { name := n, schema := some "public" }
    comment := none
    is_view := false
    columns := [] }

/-- A sample view with the given name in schema `public`. -/
def sample_view (n : String) : Table :=
  { name := { name := n, schema := some "public" }
    comment := none
    is_view := true
    columns := [] }

/-- A sample classifier: base tables are window-worthy, views are not, and no
related tables are reported. -/
def sample_intel : TableIntel :=
  { is_window := fun t _ => !t.is_view
    get_one_one_tables := fun _ _ => []
    get_has_one_tables := fun _ _ => []
    get_has_many_tables := fun _ _ => []
    get_indirect_tables := fun _ _ => [] }

/-- A sample window over `sample_table n` with no related tabs. -/
def sample_window (n : String) : Window :=
  Window.from_tables (sample_table n) [] [] [] [] []

/-- A sample schema loader that always succeeds. -/
def sample_loader : String → Except IntelError (List Table) :=
  fun _ => .ok [sample_table "product"]

/-- A sample schema loader that always fails. -/
def failing_loader : String → Except IntelError (List Table) :=
  fun _ => .error (IntelError.db_error { message := "connection refused" })

/-- The pool state after one successful cached-window call for `"db"`. -/
def sample_pool1 : CachePool :=
  { table_cache := [("db", [sample_table "product"])]
    window_cache := [("db", derive_all_windows sample_intel [sample_table "product"])] }

/-! ## Helper lemmas -/

/-- A push-if-matching loop over a list is a `map` over its `filter`. -/
theorem filterMap_if_eq_map_filter {α β : Type} (p : α → Bool) (f : α → β) (l : List α) :
    l.filterMap (fun a => if p a then some (f a) else none) = (l.filter p).map f := by
  induction l with
  | nil => rfl
  | cons a l ih =>
    cases ha : p a <;>
      simp [List.filterMap_cons, List.filter_cons, ha, ih]

/-- The counting loop inside `has_repeating_tab`, expressed with `countP`. -/
theorem foldl_count_indirect (tn : TableName) (l : List IndirectTable) (n : Nat) :
    l.foldl (fun acc ind => if ind.indirect_table.name == tn then acc + 1 else acc) n =
      n + l.countP (fun ind => ind.indirect_table.name == tn) := by
  induction l generalizing n with
  | nil => simp
  | cons a l ih =>
    rw [List.foldl_cons, List.countP_cons, ih]
    cases ha : (a.indirect_table.name == tn) <;> (simp [ha]; try omega)

/-- `has_repeating_tab` holds exactly when more than one indirect relation
targets the given table identity. -/
theorem has_repeating_tab_iff (tn : TableName) (indirect : List IndirectTable) :
    has_repeating_tab tn indirect = true ↔
      1 < indirect.countP (fun ind => ind.indirect_table.name == tn) := by
  simp only [has_repeating_tab]
  rw [foldl_count_indirect]
  simp only [Nat.zero_add]
  split <;> simp_all

/-! ## Claim theorems -/

/-- Claim C2: `derive_all_windows` returns exactly one Window per table the
classifier judges window-worthy, built from that table as main table with the
classifier's related tables, in input order; tables judged not worthy yield no
Window.  Stated as: the output is the `map` of the window builder over the
`filter` of the worthiness predicate, and consequently the main-tab identities
are exactly the worthy tables' identities in input order. -/
theorem derive_all_windows_filter_map (ti : TableIntel) (tables : List Table) :
    derive_all_windows ti tables =
      (tables.filter (fun t => ti.is_window t tables)).map (fun t =>
        Window.from_tables t
          (ti.get_one_one_tables t tables)
          (ti.get_has_one_tables t tables)
          (ti.get_has_many_tables t tables)
          (ti.get_indirect_tables t tables)
          tables) ∧
    (derive_all_windows ti tables).map (fun w => w.main_tab.table_name) =
      (tables.filter (fun t => ti.is_window t tables)).map (fun t => t.name) := by
  have h := filterMap_if_eq_map_filter (fun t => ti.is_window t tables)
    (fun t => Window.from_tables t
      (ti.get_one_one_tables t tables)
      (ti.get_has_one_tables t tables)
      (ti.get_has_many_tables t tables)
      (ti.get_indirect_tables t tables)
      tables) tables
  refine ⟨h, ?_⟩
  rw [show derive_all_windows ti tables = _ from h, List.map_map]
  rfl

/-- Claim C3: a Window built by `Window::from_tables` has its window-level
fields equal to the corresponding fields of its main Tab: name, is-view flag,
description, and group equal to the schema of the main Tab's table identity.
(The embedding has no operation mutating a constructed Window, so the fields
never diverge afterwards.) -/
theorem window_fields_mirror_main_tab (main_table : Table)
    (one_one has_one has_many : List Table) (indirect : List IndirectTable)
    (all_tables : List Table) :
    let w := Window.from_tables main_table one_one has_one has_many indirect all_tables
    w.name = w.main_tab.name ∧ w.is_view = w.main_tab.is_view ∧
      w.description = w.main_tab.description ∧ w.group = w.main_tab.table_name.schema :=
  ⟨rfl, rfl, rfl, rfl⟩

/-- Claim C4: `Window::has_column_name` is true exactly when the column is
present in the main Tab, in some has-many Tab, or in some indirect Tab;
columns present only in has-one or one-one Tabs do not make it true. -/
theorem window_has_column_name_iff (w : Window) (c : ColumnName) :
    w.has_column_name c = true ↔
      (c ∈ w.main_tab.columns ∨ (∃ tab ∈ w.has_many_tabs, c ∈ tab.columns) ∨
        ∃ p ∈ w.indirect_tabs, c ∈ p.2.columns) := by
  simp only [Window.has_column_name, Tab.has_column_name, Bool.or_eq_true,
    List.any_eq_true, List.contains, List.elem_iff]
  aesop

/-- Two matches of `p` at distinct positions push `countP` above one. -/
theorem one_lt_countP_of_two_getElem {α : Type} (p : α → Bool) (l : List α)
    (i j : Nat) (a b : α) (hi : l[i]? = some a) (hj : l[j]? = some b) (hij : i < j)
    (ha : p a = true) (hb : p b = true) : 1 < l.countP p := by
  have hjl : j < l.length := by
    rcases Nat.lt_or_ge j l.length with h | h
    · exact h
    · rw [List.getElem?_eq_none h] at hj
      cases hj
  have h1 : 0 < (l.take j).countP p := by
    refine List.countP_pos_iff.mpr ⟨a, ?_, ha⟩
    have hta : (l.take j)[i]? = some a := by
      rw [List.getElem?_take_of_lt hij]
      exact hi
    exact List.getElem?_mem hta
  have h2 : 0 < (l.drop j).countP p := by
    refine List.countP_pos_iff.mpr ⟨b, ?_, hb⟩
    have hb' : l[j] = b := by
      rw [List.getElem?_eq_getElem hjl] at hj
      exact Option.some.inj hj
    rw [List.drop_eq_getElem_cons hjl, hb']
    exact List.mem_cons_self _ _
  calc 1 < (l.take j).countP p + (l.drop j).countP p := by omega
    _ = l.countP p := by rw [← List.countP_append, List.take_append_drop]

/-- Claim C1: the Tab built for the `i`-th indirect relation pairs the linker's
identity with a Tab built from the target table, and carries the display-name
override `"<target-table-name> (via <linker-table-name>)"` exactly when more
than one relation in the full indirect set has the same target table identity;
when exactly one relation has that identity, the Tab is built with no
display-name override. -/
theorem indirect_tab_disambiguation (main_table : Table)
    (one_one has_one has_many : List Table) (indirect : List IndirectTable)
    (all_tables : List Table) (i : Nat) (rel : IndirectTable)
    (hrel : indirect[i]? = some rel) :
    (Window.from_tables main_table one_one has_one has_many indirect
        all_tables).indirect_tabs[i]? =
      some (rel.linker.name,
        Tab.from_table rel.indirect_table
          (if 1 < indirect.countP
                (fun ind => ind.indirect_table.name == rel.indirect_table.name) then
            some (rel.indirect_table.name.name ++ " (via " ++ rel.linker.name.name ++ ")")
          else
            none)
          all_tables) := by
  simp only [Window.from_tables, List.getElem?_map, hrel, Option.map_some']
  by_cases hc :
      1 < indirect.countP (fun ind => ind.indirect_table.name == rel.indirect_table.name)
  · simp [has_repeating_tab_iff, hc]
  · simp [has_repeating_tab_iff, hc]

/-- Claim C10: two indirect relations at distinct positions sharing both the
target table identity and the linker table identity each yield an indirect Tab,
and both Tabs receive the identical display name
`"<target> (via <linker>)"` — the repetition count is over all occurrences,
so the disambiguating suffix fires, yet yields duplicate labels. -/
theorem indirect_tabs_same_linker_same_label (main_table : Table)
    (one_one has_one has_many : List Table) (indirect : List IndirectTable)
    (all_tables : List Table) (i j : Nat) (ri rj : IndirectTable)
    (hi : indirect[i]? = some ri) (hj : indirect[j]? = some rj) (hij : i ≠ j)
    (htarget : ri.indirect_table.name = rj.indirect_table.name)
    (hlinker : ri.linker.name = rj.linker.name) :
    ∃ wi wj : TableName × Tab,
      (Window.from_tables main_table one_one has_one has_many indirect
          all_tables).indirect_tabs[i]? = some wi ∧
      (Window.from_tables main_table one_one has_one has_many indirect
          all_tables).indirect_tabs[j]? = some wj ∧
      wi.2.name = ri.indirect_table.name.name ++ " (via " ++ ri.linker.name.name ++ ")" ∧
      wj.2.name = wi.2.name := by
  have hcount :
      1 < indirect.countP (fun ind => ind.indirect_table.name == ri.indirect_table.name) := by
    rcases Nat.lt_trichotomy i j with h | h | h
    · exact one_lt_countP_of_two_getElem _ _ i j ri rj hi hj h (by simp) (by simp [htarget])
    · exact absurd h hij
    · exact one_lt_countP_of_two_getElem _ _ j i rj ri hj hi h (by simp [htarget]) (by simp)
  have hrep_i : has_repeating_tab ri.indirect_table.name indirect = true :=
    (has_repeating_tab_iff _ _).mpr hcount
  have hrep_j : has_repeating_tab rj.indirect_table.name indirect = true := by
    rw [← htarget]
    exact hrep_i
  refine ⟨(ri.linker.name,
      Tab.from_table ri.indirect_table
        (some (ri.indirect_table.name.name ++ " (via " ++ ri.linker.name.name ++ ")"))
        all_tables),
    (rj.linker.name,
      Tab.from_table rj.indirect_table
        (some (rj.indirect_table.name.name ++ " (via " ++ rj.linker.name.name ++ ")"))
        all_tables),
    ?_, ?_, rfl, ?_⟩
  · simp only [Window.from_tables, List.getElem?_map, hi, Option.map_some']
    simp [hrep_i]
  · simp only [Window.from_tables, List.getElem?_map, hj, Option.map_some']
    simp [hrep_j]
  · simp [Tab.from_table, htarget, hlinker]

/-- The table identities of the per-group `WindowName` entries are exactly the
listed names that resolve to a window-worthy table, in order. -/
theorem window_names_map_filter (ti : TableIntel) (tables : List Table)
    (names : List TableName) :
    (names.filterMap (fun table_name =>
        match get_table table_name tables with
        | some table =>
          if ti.is_window table tables then
            some { name := table_name.name
                   table_name := table_name
                   is_view := table.is_view : WindowName }
          else
            none
        | none => none)).map (fun wn => wn.table_name) =
      names.filter (fun table_name =>
        match get_table table_name tables with
        | some table => ti.is_window table tables
        | none => false) := by
  induction names with
  | nil => rfl
  | cons n ns ih =>
    simp only [List.filterMap_cons, List.filter_cons]
    cases hg : get_table n tables with
    | none => simpa [hg] using ih
    | some t =>
      cases hw : ti.is_window t tables
      · simpa [hg, hw] using ih
      · simpa [hg, hw] using ih

/-- Every emitted `WindowName` comes from a found, window-worthy table, and
carries that table's bare name and is-view flag. -/
theorem window_names_sound (ti : TableIntel) (tables : List Table)
    (names : List TableName) :
    ∀ wn ∈ names.filterMap (fun table_name =>
        match get_table table_name tables with
        | some table =>
          if ti.is_window table tables then
            some { name := table_name.name
                   table_name := table_name
                   is_view := table.is_view : WindowName }
          else
            none
        | none => none),
      ∃ t, get_table wn.table_name tables = some t ∧ ti.is_window t tables = true ∧
        wn.name = wn.table_name.name ∧ wn.is_view = t.is_view := by
  intro wn hwn
  rw [List.mem_filterMap] at hwn
  obtain ⟨tn, _htn, hg⟩ := hwn
  cases hgt : get_table tn tables with
  | none => simp [hgt] at hg
  | some t =>
    cases hw : ti.is_window t tables
    · simp [hgt, hw] at hg
    · simp only [hgt, hw, if_true, Option.some.injEq] at hg
      subst hg
      exact ⟨t, hgt, hw, rfl, rfl⟩

/-- Claim C5: `get_window` returns the first window whose main tab's table
identity exactly equals the queried identity (the windows before it do not
match), and returns `none` exactly when no window's main table identity
equals the query. -/
theorem get_window_first_exact_match (q : TableName) (ws : List Window) :
    (∀ w, get_window q ws = some w →
      w.main_tab.table_name = q ∧
        ∃ pre post, ws = pre ++ w :: post ∧ ∀ x ∈ pre, x.main_tab.table_name ≠ q) ∧
    (get_window q ws = none ↔ ∀ w ∈ ws, w.main_tab.table_name ≠ q) := by
  constructor
  · intro w hw
    rw [get_window, List.find?_eq_some] at hw
    obtain ⟨hpw, pre, post, heq, hpre⟩ := hw
    refine ⟨by simpa using hpw, pre, post, heq, ?_⟩
    intro x hx
    simpa using hpre x hx
  · rw [get_window, List.find?_eq_none]
    constructor
    · intro h w hw
      simpa using h w hw
    · intro h w hw
      simpa using h w hw

/-- Claim C6: on a successful grouping query, the listing has one entry per
schema group; within each group the `WindowName` entries are exactly the
listed table names followed by the listed view names that resolve to a table
the classifier judges window-worthy, in that order, and each entry carries the
bare table name and the table's is-view flag. -/
theorem grouped_windows_per_group (ti : TableIntel) (scs : List SchemaContent)
    (tables : List Table) (gws : List GroupedWindow)
    (h : get_grouped_windows ti (.ok scs) tables = .ok gws) :
    gws.length = scs.length ∧
    ∀ (k : Nat) (sc : SchemaContent) (gw : GroupedWindow),
      scs[k]? = some sc → gws[k]? = some gw →
      gw.group = sc.schema ∧
      gw.window_names.map (fun wn => wn.table_name) =
        (sc.tablenames ++ sc.views).filter (fun table_name =>
          match get_table table_name tables with
          | some table => ti.is_window table tables
          | none => false) ∧
      ∀ wn ∈ gw.window_names, ∃ t, get_table wn.table_name tables = some t ∧
        ti.is_window t tables = true ∧ wn.name = wn.table_name.name ∧
        wn.is_view = t.is_view := by
  simp only [get_grouped_windows, Except.ok.injEq] at h
  subst h
  refine ⟨by simp, ?_⟩
  intro k sc gw hk hgw
  rw [List.getElem?_map, hk, Option.map_some'] at hgw
  obtain rfl := (Option.some.inj hgw).symm
  exact ⟨rfl, window_names_map_filter ti tables (sc.tablenames ++ sc.views),
    window_names_sound ti tables (sc.tablenames ++ sc.views)⟩

/-- Claim C9: a listed name with no matching table in the table set is
silently skipped: the grouped listing still succeeds, and every emitted
`WindowName` resolves to a table in the table set, so a missing table never
contributes an entry nor an error. -/
theorem grouped_windows_skip_missing (ti : TableIntel) (scs : List SchemaContent)
    (tables : List Table) :
    (∃ gws, get_grouped_windows ti (.ok scs) tables = .ok gws) ∧
    ∀ gws, get_grouped_windows ti (.ok scs) tables = .ok gws →
      ∀ gw ∈ gws, ∀ wn ∈ gw.window_names, get_table wn.table_name tables ≠ none := by
  constructor
  · exact ⟨_, rfl⟩
  · intro gws hg gw hgw wn hwn
    simp only [get_grouped_windows, Except.ok.injEq] at hg
    subst hg
    rw [List.mem_map] at hgw
    obtain ⟨sc, _hsc, rfl⟩ := hgw
    obtain ⟨t, ht, -, -, -⟩ :=
      window_names_sound ti tables (sc.tablenames ++ sc.views) wn hwn
    simp [ht]

/-- Claim C7: once a call to the cached window accessor has succeeded for a
connection identity, a second call with the same identity returns the
structurally identical window list and leaves the pool unchanged, whatever
loader is supplied the second time — so the schema loader cannot be invoked
again and the load-and-derive computation runs at most once per identity. -/
theorem cached_windows_idempotent (ti : TableIntel)
    (loader : String → Except IntelError (List Table)) (pool pool1 : CachePool)
    (db_url : String) (ws : List Window)
    (h : pool.get_cached_windows ti loader db_url = (.ok ws, pool1)) :
    ∀ loader2 : String → Except IntelError (List Table),
      pool1.get_cached_windows ti loader2 db_url = (.ok ws, pool1) := by
  intro loader2
  have hlook : pool1.window_cache.lookup db_url = some ws := by
    unfold CachePool.get_cached_windows at h
    cases hl : pool.window_cache.lookup db_url with
    | some ws0 =>
      rw [hl] at h
      simp only [Prod.mk.injEq, Except.ok.injEq] at h
      obtain ⟨rfl, rfl⟩ := h
      exact hl
    | none =>
      rw [hl] at h
      cases hct : pool.get_cached_tables loader db_url with
      | mk r p1 =>
        rw [hct] at h
        cases r with
        | ok tables =>
          simp only [Prod.mk.injEq, Except.ok.injEq] at h
          obtain ⟨rfl, rfl⟩ := h
          simp [List.lookup]
        | error e => simp at h
  unfold CachePool.get_cached_windows
  rw [hlook]

/-- Claim C8: when the table cache has no entry for the identity and the
schema loader fails, the cached table accessor returns that same error with
the pool unchanged, so nothing is stored and a later call retries the load;
conversely, once a table set is cached for the identity, the cached window
accessor always succeeds — window derivation itself is a total function and
produces no error for any table set. -/
theorem load_failure_propagated_derivation_total (ti : TableIntel)
    (loader : String → Except IntelError (List Table)) (pool : CachePool)
    (db_url : String) (e : IntelError) :
    (pool.table_cache.lookup db_url = none → loader db_url = .error e →
      pool.get_cached_tables loader db_url = (.error e, pool)) ∧
    (∀ tables, pool.table_cache.lookup db_url = some tables →
      ∃ ws pool1, pool.get_cached_windows ti loader db_url = (.ok ws, pool1)) := by
  constructor
  · intro hnone herr
    unfold CachePool.get_cached_tables
    rw [hnone, herr]
  · intro tables htab
    unfold CachePool.get_cached_windows
    cases hw : pool.window_cache.lookup db_url with
    | some ws0 => exact ⟨ws0, pool, rfl⟩
    | none =>
      unfold CachePool.get_cached_tables
      rw [htab]
      exact ⟨_, _, rfl⟩

/-! ## Witnesses -/

/-- Witness for claim C1: with two indirect relations targeting `tag` via
different linkers, the first indirect tab carries the disambiguating display
name `"tag (via product_tag)"`. -/
theorem indirect_tab_disambiguation_witness :
    (Window.from_tables (sample_table "product") [] [] []
        [{ linker := sample_table "product_tag", indirect_table := sample_table "tag" },
         { linker := sample_table "review_tag", indirect_table := sample_table "tag" }]
        []).indirect_tabs[0]? =
      some ((sample_table "product_tag").name,
        Tab.from_table (sample_table "tag") (some "tag (via product_tag)") []) :=
  indirect_tab_disambiguation (sample_table "product") [] [] []
    [{ linker := sample_table "product_tag", indirect_table := sample_table "tag" },
     { linker := sample_table "review_tag", indirect_table := sample_table "tag" }]
    [] 0 { linker := sample_table "product_tag", indirect_table := sample_table "tag" } rfl

/-- Witness for claim C5: looking up `product` in a one-window list returns
that window, whose main table identity equals the query. -/
theorem get_window_first_exact_match_witness :
    (sample_window "product").main_tab.table_name =
        { name := "product", schema := some "public" } ∧
      ∃ pre post, ([sample_window "product"] : List Window) =
          pre ++ sample_window "product" :: post ∧
        ∀ x ∈ pre, x.main_tab.table_name ≠ { name := "product", schema := some "public" } :=
  (get_window_first_exact_match { name := "product", schema := some "public" }
    [sample_window "product"]).1 (sample_window "product") rfl

/-- Witness for claim C6: a group listing one window-worthy table and one
non-worthy view yields exactly one `WindowName`. -/
theorem grouped_windows_per_group_witness :
    ([({ group := "public"
         window_names := [{ name := "product"
                            table_name := { name := "product", schema := some "public" }
                            is_view := false }] } : GroupedWindow)].length =
      [({ schema := "public"
          tablenames := [{ name := "product", schema := some "public" }]
          views := [{ name := "vw", schema := some "public" }] } : SchemaContent)].length) ∧
    ∀ (k : Nat) (sc : SchemaContent) (gw : GroupedWindow),
      ([({ schema := "public"
           tablenames := [{ name := "product", schema := some "public" }]
           views := [{ name := "vw", schema := some "public" }] } : SchemaContent)])[k]? =
          some sc →
      ([({ group := "public"
           window_names := [{ name := "product"
                              table_name := { name := "product", schema := some "public" }
                              is_view := false }] } : GroupedWindow)])[k]? = some gw →
      gw.group = sc.schema ∧
      gw.window_names.map (fun wn => wn.table_name) =
        (sc.tablenames ++ sc.views).filter (fun table_name =>
          match get_table table_name [sample_table "product", sample_view "vw"] with
          | some table => sample_intel.is_window table [sample_table "product", sample_view "vw"]
          | none => false) ∧
      ∀ wn ∈ gw.window_names,
        ∃ t, get_table wn.table_name [sample_table "product", sample_view "vw"] = some t ∧
          sample_intel.is_window t [sample_table "product", sample_view "vw"] = true ∧
          wn.name = wn.table_name.name ∧ wn.is_view = t.is_view :=
  grouped_windows_per_group sample_intel
    [{ schema := "public"
       tablenames := [{ name := "product", schema := some "public" }]
       views := [{ name := "vw", schema := some "public" }] }]
    [sample_table "product", sample_view "vw"]
    [{ group := "public"
       window_names := [{ name := "product"
                          table_name := { name := "product", schema := some "public" }
                          is_view := false }] }]
    rfl

/-- Witness for claim C7: after a first successful cached-window call starting
from the empty pool, a second call on the resulting pool returns the identical
window list and pool even when handed a loader that always fails — the loader
is not consulted. -/
theorem cached_windows_idempotent_witness :
    CachePool.get_cached_windows sample_intel failing_loader sample_pool1 "db" =
      (.ok (derive_all_windows sample_intel [sample_table "product"]), sample_pool1) :=
  cached_windows_idempotent sample_intel sample_loader
    { table_cache := [], window_cache := [] } sample_pool1 "db"
    (derive_all_windows sample_intel [sample_table "product"]) rfl failing_loader

/-- Witness for claim C8: on an empty pool a failing loader's error is
returned with the pool unchanged, and once tables are cached for `"db"` the
cached-window accessor succeeds. -/
theorem load_failure_propagated_derivation_total_witness :
    (CachePool.get_cached_tables failing_loader { table_cache := [], window_cache := [] } "db" =
      (.error (IntelError.db_error { message := "connection refused" }),
        { table_cache := [], window_cache := [] })) ∧
    ∃ ws pool1,
      CachePool.get_cached_windows sample_intel failing_loader
        { table_cache := [("db", [sample_table "product"])], window_cache := [] } "db" =
        (.ok ws, pool1) :=
  ⟨(load_failure_propagated_derivation_total sample_intel failing_loader
      { table_cache := [], window_cache := [] } "db"
      (IntelError.db_error { message := "connection refused" })).1 rfl rfl,
    (load_failure_propagated_derivation_total sample_intel failing_loader
      { table_cache := [("db", [sample_table "product"])], window_cache := [] } "db"
      (IntelError.db_error { message := "connection refused" })).2
      [sample_table "product"] rfl⟩

/-- Witness for claim C9: a grouping that lists a name with no matching table
still succeeds, and none of the emitted entries refers to a missing table. -/
theorem grouped_windows_skip_missing_witness :
    (∃ gws, get_grouped_windows sample_intel
        (.ok [{ schema := "public"
                tablenames := [{ name := "ghost", schema := some "public" }]
                views := [] }])
        [sample_table "product"] = .ok gws) ∧
    ∀ gws, get_grouped_windows sample_intel
        (.ok [{ schema := "public"
                tablenames := [{ name := "ghost", schema := some "public" }]
                views := [] }])
        [sample_table "product"] = .ok gws →
      ∀ gw ∈ gws, ∀ wn ∈ gw.window_names,
        get_table wn.table_name [sample_table "product"] ≠ none :=
  grouped_windows_skip_missing sample_intel
    [{ schema := "public"
       tablenames := [{ name := "ghost", schema := some "public" }]
       views := [] }]
    [sample_table "product"]

/-- Witness for claim C10: two indirect relations to `tag` through the same
linker `product_tag` yield two tabs bearing the identical display name
`"tag (via product_tag)"`. -/
theorem indirect_tabs_same_linker_same_label_witness :
    ∃ wi wj : TableName × Tab,
      (Window.from_tables (sample_table "product") [] [] []
          [{ linker := sample_table "product_tag", indirect_table := sample_table "tag" },
           { linker := sample_table "product_tag", indirect_table := sample_table "tag" }]
          []).indirect_tabs[0]? = some wi ∧
      (Window.from_tables (sample_table "product") [] [] []
          [{ linker := sample_table "product_tag", indirect_table := sample_table "tag" },
           { linker := sample_table "product_tag", indirect_table := sample_table "tag" }]
          []).indirect_tabs[1]? = some wj ∧
      wi.2.name = "tag (via product_tag)" ∧
      wj.2.name = wi.2.name :=
  indirect_tabs_same_linker_same_label (sample_table "product") [] [] []
    [{ linker := sample_table "product_tag", indirect_table := sample_table "tag" },
     { linker := sample_table "product_tag", indirect_table := sample_table "tag" }]
    [] 0 1
    { linker := sample_table "product_tag", indirect_table := sample_table "tag" }
    { linker := sample_table "product_tag", indirect_table := sample_table "tag" }
    rfl rfl (by decide) rfl rfl
